import Mathlib

/-!
Shallow embedding of the BhModloader coordination layer (src/main.py) and
proofs of its specified properties.

Conventions of the embedding:
- Python lists become Lean `List`s; Python strings become `String` or
  `List Char` (the latter where character-level reasoning is needed).
- The filesystem is abstracted: the set of names already present in the mods
  directory is a boolean predicate `String → Bool`; `os.path.abspath` is the
  identity on the already-absolute, normalized paths all statements use, and
  the path separator is the forward slash.
- Stateful code becomes explicit state passing; generators become functions
  returning the yielded sequence together with the post state; exception
  control flow becomes explicit outcome values.
-/

/-- Boolean prefix test on lists, modelling Python `str.startswith` and the
byte-signature tests of `urlImport` (character by character from the left). -/
def listIsPrefix {α : Type} [DecidableEq α] : List α → List α → Bool
  | [], _ => true
  | _ :: _, [] => false
  | a :: as, b :: bs => if a = b then listIsPrefix as bs else false

/-- Boolean suffix test on lists, modelling Python `str.endswith`. -/
def listIsSuffix {α : Type} [DecidableEq α] (p s : List α) : Bool :=
  listIsPrefix p.reverse s.reverse

/-- The state of the `ImportQueue` class (src/main.py lines 85-149): two
item lists, each with its registered wake signal and its active-drain flag. -/
structure ImportQueue (α : Type) where
  urlQueue : List α
  signalUrl : Bool
  readUrlQueue : Bool
  fileQueue : List α
  signalFile : Bool
  readFileQueue : Bool

/-- The freshly constructed `ImportQueue`: both queues empty, no signal
registered, no drain active (`ImportQueue.__init__`). -/
def ImportQueue.start (α : Type) : ImportQueue α :=
  ⟨[], false, false, [], false, false⟩

/-- `setUrlSignal`: registers the URL wake callback. -/
def setUrlSignal {α : Type} (s : ImportQueue α) : ImportQueue α :=
  { s with signalUrl := true }

/-- `setFileSignal`: registers the file wake callback. -/
def setFileSignal {α : Type} (s : ImportQueue α) : ImportQueue α :=
  { s with signalFile := true }

/-- `addUrl`: appends the item at the tail of the URL queue (the wake-retry
thread it spawns carries no queue state and is not modelled). -/
def addUrl {α : Type} (s : ImportQueue α) (url : α) : ImportQueue α :=
  { s with urlQueue := s.urlQueue ++ [url] }

/-- `addFile`: appends the item at the tail of the file queue. -/
def addFile {α : Type} (s : ImportQueue α) (file : α) : ImportQueue α :=
  { s with fileQueue := s.fileQueue ++ [file] }

/-- The generator loop shared by `iterUrl` and `iterFile`:
`while queue: yield queue.pop(0)`. Returns the yielded sequence and the
queue left behind when the loop exhausts. -/
def popAll {α : Type} : List α → List α × List α
  | [] => ([], [])
  | x :: q => (x :: (popAll q).1, (popAll q).2)

/-- `iterUrl`: drains the URL queue (the drain-active flag is set for the
duration of the loop and reset at the end). -/
def iterUrl {α : Type} (s : ImportQueue α) : List α × ImportQueue α :=
  ((popAll s.urlQueue).1,
   { s with urlQueue := (popAll s.urlQueue).2, readUrlQueue := false })

/-- `iterFile`: drains the file queue. -/
def iterFile {α : Type} (s : ImportQueue α) : List α × ImportQueue α :=
  ((popAll s.fileQueue).1,
   { s with fileQueue := (popAll s.fileQueue).2, readFileQueue := false })

/-- The archive container formats distinguished by `urlImport`. -/
inductive ArchiveFormat
  | SevenZip
  | Rar
  | Zip
  | Unknown
  deriving DecidableEq

/-- The 7z magic bytes, ASCII "7z" (`_signature.startswith(b"7z")`). -/
def sig7z : List Nat := [0x37, 0x7a]

/-- The Rar magic bytes, ASCII "Rar". -/
def sigRar : List Nat := [0x52, 0x61, 0x72]

/-- The zip magic bytes, ASCII "PK". -/
def sigZip : List Nat := [0x50, 0x4b]

/-- Format sniffing of `urlImport` (src/main.py lines 690-715): the first 3
bytes of the downloaded file are read and tested against the three
signatures in the source's order; no branch matches on any other leading
bytes, which is the Unknown case. -/
def classifyArchive (bytes : List Nat) : ArchiveFormat :=
  if listIsPrefix sig7z (bytes.take 3) then ArchiveFormat.SevenZip
  else if listIsPrefix sigRar (bytes.take 3) then ArchiveFormat.Rar
  else if listIsPrefix sigZip (bytes.take 3) then ArchiveFormat.Zip
  else ArchiveFormat.Unknown

/-- Python `str.endswith` on Lean strings. -/
def pyEndsWith (s suffix : String) : Bool :=
  listIsSuffix suffix.data s.data

/-- The entry selection of `urlImport`'s three extraction loops: each loop
enumerates the archive's entry names and extracts exactly those ending in
`"." + MOD_FILE_FORMAT`; when no signature matched, no loop runs at all.
`modExt` stands for the engine-owned constant `core.MOD_FILE_FORMAT`. -/
def extractEntries (fmt : ArchiveFormat) (modExt : String)
    (entries : List String) : List String :=
  match fmt with
  | ArchiveFormat.Unknown => []
  | _ => entries.filter (fun e => pyEndsWith e ("." ++ modExt))

theorem listIsPrefix_append {α : Type} [DecidableEq α] (l t : List α) :
    listIsPrefix l (l ++ t) = true := by
  induction l with
  | nil => rfl
  | cons a as ih => simp [listIsPrefix, ih]

theorem listIsPrefix_iff {α : Type} [DecidableEq α] (p s : List α) :
    listIsPrefix p s = true ↔ ∃ t, s = p ++ t := by
  induction p generalizing s with
  | nil => simp [listIsPrefix]
  | cons a as ih =>
    cases s with
    | nil => simp [listIsPrefix]
    | cons b bs =>
      constructor
      · intro h
        by_cases hab : a = b
        · subst hab
          simp only [listIsPrefix, if_pos rfl] at h
          obtain ⟨t, ht⟩ := (ih bs).mp h
          exact ⟨t, by simp [ht]⟩
        · simp [listIsPrefix, hab] at h
      · rintro ⟨t, ht⟩
        obtain ⟨rfl, rfl⟩ : a = b ∧ bs = as ++ t := by
          constructor <;> simp_all
        simp only [listIsPrefix, if_pos rfl]
        exact (ih _).mpr ⟨t, rfl⟩

theorem listIsPrefix_trans {α : Type} [DecidableEq α] {p q s : List α}
    (h1 : listIsPrefix p q = true) (h2 : listIsPrefix q s = true) :
    listIsPrefix p s = true := by
  obtain ⟨t, rfl⟩ := (listIsPrefix_iff p q).mp h1
  obtain ⟨u, rfl⟩ := (listIsPrefix_iff _ s).mp h2
  exact (listIsPrefix_iff _ _).mpr ⟨t ++ u, by simp⟩

theorem listIsPrefix_take {α : Type} [DecidableEq α] {p s : List α} {n : Nat}
    (h : listIsPrefix p s = true) (hn : p.length ≤ n) :
    listIsPrefix p (s.take n) = true := by
  obtain ⟨t, rfl⟩ := (listIsPrefix_iff p s).mp h
  refine (listIsPrefix_iff _ _).mpr ⟨t.take (n - p.length), ?_⟩
  rw [List.take_append_eq_append_take, List.take_of_length_le hn]

theorem listIsPrefix_of_take {α : Type} [DecidableEq α] {p s : List α} {n : Nat}
    (h : listIsPrefix p (s.take n) = true) : listIsPrefix p s = true :=
  listIsPrefix_trans h
    ((listIsPrefix_iff _ _).mpr ⟨s.drop n, (List.take_append_drop n s).symm⟩)

theorem popAll_eq {α : Type} (q : List α) : popAll q = (q, []) := by
  induction q with
  | nil => rfl
  | cons x q ih => simp [popAll, ih]

theorem foldl_addFile_queue {α : Type} (xs : List α) (s : ImportQueue α) :
    (xs.foldl addFile s).fileQueue = s.fileQueue ++ xs := by
  induction xs generalizing s with
  | nil => simp
  | cons x xs ih => simp [ih, addFile]

theorem foldl_addUrl_queue {α : Type} (xs : List α) (s : ImportQueue α) :
    (xs.foldl addUrl s).urlQueue = s.urlQueue ++ xs := by
  induction xs generalizing s with
  | nil => simp
  | cons x xs ih => simp [ih, addUrl]

/-- C1: every sequence of items pushed to a deferred queue (file or URL)
before the wake callback is registered is yielded by a subsequent drain
exactly once and in push order, and the drain leaves the queue empty:
nothing is dropped or duplicated. -/
theorem importQueue_drain_fifo {α : Type} (files urls : List α) :
    (iterFile (setFileSignal (files.foldl addFile (ImportQueue.start α)))).1
      = files ∧
    (iterFile (setFileSignal
        (files.foldl addFile (ImportQueue.start α)))).2.fileQueue = [] ∧
    (iterUrl (setUrlSignal (urls.foldl addUrl (ImportQueue.start α)))).1
      = urls ∧
    (iterUrl (setUrlSignal
        (urls.foldl addUrl (ImportQueue.start α)))).2.urlQueue = [] := by
  have hf : (files.foldl addFile (ImportQueue.start α)).fileQueue = files := by
    simp [foldl_addFile_queue, ImportQueue.start]
  have hu : (urls.foldl addUrl (ImportQueue.start α)).urlQueue = urls := by
    simp [foldl_addUrl_queue, ImportQueue.start]
  have hsf : (setFileSignal
      (files.foldl addFile (ImportQueue.start α))).fileQueue = files := hf
  have hsu : (setUrlSignal
      (urls.foldl addUrl (ImportQueue.start α))).urlQueue = urls := hu
  refine ⟨?_, ?_, ?_, ?_⟩ <;>
    simp [iterFile, iterUrl, hsf, hsu, popAll_eq]

/-- C4: archive classification is a function of the first 3 bytes alone;
a leading "7z" yields SevenZip, a leading "Rar" yields Rar, a leading "PK"
yields Zip, and any other leading bytes yield Unknown, for which no
extraction happens (and no other action is taken). -/
theorem classifyArchive_spec (bytes : List Nat) :
    classifyArchive bytes = classifyArchive (bytes.take 3) ∧
    (listIsPrefix sig7z bytes = true →
      classifyArchive bytes = ArchiveFormat.SevenZip) ∧
    (listIsPrefix sigRar bytes = true →
      classifyArchive bytes = ArchiveFormat.Rar) ∧
    (listIsPrefix sigZip bytes = true →
      classifyArchive bytes = ArchiveFormat.Zip) ∧
    (listIsPrefix sig7z bytes = false → listIsPrefix sigRar bytes = false →
      listIsPrefix sigZip bytes = false →
      classifyArchive bytes = ArchiveFormat.Unknown ∧
      ∀ (modExt : String) (entries : List String),
        extractEntries ArchiveFormat.Unknown modExt entries = []) := by
  refine ⟨?_, ?_, ?_, ?_, ?_⟩
  · simp [classifyArchive, List.take_take]
  · intro h
    have h3 : listIsPrefix sig7z (bytes.take 3) = true :=
      listIsPrefix_take h (by simp [sig7z])
    simp [classifyArchive, h3]
  · intro h
    have h3 : listIsPrefix sigRar (bytes.take 3) = true :=
      listIsPrefix_take h (by simp [sigRar])
    have h7 : ¬ listIsPrefix sig7z (bytes.take 3) = true := by
      intro hc
      obtain ⟨t, ht⟩ := (listIsPrefix_iff _ _).mp hc
      obtain ⟨u, hu⟩ := (listIsPrefix_iff _ _).mp h3
      rw [ht] at hu
      simp [sig7z, sigRar] at hu
    simp [classifyArchive, h3, h7]
  · intro h
    have h3 : listIsPrefix sigZip (bytes.take 3) = true :=
      listIsPrefix_take h (by simp [sigZip])
    have h7 : ¬ listIsPrefix sig7z (bytes.take 3) = true := by
      intro hc
      obtain ⟨t, ht⟩ := (listIsPrefix_iff _ _).mp hc
      obtain ⟨u, hu⟩ := (listIsPrefix_iff _ _).mp h3
      rw [ht] at hu
      simp [sig7z, sigZip] at hu
    have hr : ¬ listIsPrefix sigRar (bytes.take 3) = true := by
      intro hc
      obtain ⟨t, ht⟩ := (listIsPrefix_iff _ _).mp hc
      obtain ⟨u, hu⟩ := (listIsPrefix_iff _ _).mp h3
      rw [ht] at hu
      simp [sigRar, sigZip] at hu
    simp [classifyArchive, h3, h7, hr]
  · intro h7 hr hz
    have n7 : ¬ listIsPrefix sig7z (bytes.take 3) = true := fun hc =>
      by simp [listIsPrefix_of_take hc] at h7
    have nr : ¬ listIsPrefix sigRar (bytes.take 3) = true := fun hc =>
      by simp [listIsPrefix_of_take hc] at hr
    have nz : ¬ listIsPrefix sigZip (bytes.take 3) = true := fun hc =>
      by simp [listIsPrefix_of_take hc] at hz
    exact ⟨by simp [classifyArchive, n7, nr, nz], fun _ _ => rfl⟩

/-- Witness for C4: the classification at concrete leading bytes of each of
the four classes. -/
theorem classifyArchive_spec_witness :
    classifyArchive [0x37, 0x7a, 0xbc, 9] = ArchiveFormat.SevenZip ∧
    classifyArchive [0x52, 0x61, 0x72, 0x21] = ArchiveFormat.Rar ∧
    classifyArchive [0x50, 0x4b, 3, 4] = ArchiveFormat.Zip ∧
    classifyArchive [1, 2, 3] = ArchiveFormat.Unknown ∧
    extractEntries ArchiveFormat.Unknown "bmod" ["a.bmod"] = [] :=
  ⟨(classifyArchive_spec _).2.1 (by decide),
   (classifyArchive_spec _).2.2.1 (by decide),
   (classifyArchive_spec _).2.2.2.1 (by decide),
   ((classifyArchive_spec [1, 2, 3]).2.2.2.2 (by decide) (by decide)
      (by decide)).1,
   ((classifyArchive_spec [1, 2, 3]).2.2.2.2 (by decide) (by decide)
      (by decide)).2 "bmod" ["a.bmod"]⟩

/-- C5: whatever the archive format, an entry written into the mods
directory by the extraction loops comes from the archive and its name ends
with the configured mod-file extension; every other entry of the archive is
never written. -/
theorem extract_only_mod_entries (fmt : ArchiveFormat) (modExt : String)
    (entries : List String) (e : String)
    (h : e ∈ extractEntries fmt modExt entries) :
    e ∈ entries ∧ pyEndsWith e ("." ++ modExt) = true := by
  cases fmt <;> simp_all [extractEntries, List.mem_filter]

/-- Witness for C5: from a zip holding one mod file and one stray file, the
extracted entry set is the mod file, whose name ends with the extension. -/
theorem extract_only_mod_entries_witness :
    "x.bmod" ∈ extractEntries ArchiveFormat.Zip "bmod"
      ["x.bmod", "readme.txt"] ∧
    "x.bmod" ∈ ["x.bmod", "readme.txt"] ∧
    pyEndsWith "x.bmod" (String.append "." "bmod") = true := by
  have hmem : "x.bmod" ∈ extractEntries ArchiveFormat.Zip "bmod"
      ["x.bmod", "readme.txt"] := by decide
  have h := extract_only_mod_entries ArchiveFormat.Zip "bmod"
    ["x.bmod", "readme.txt"] "x.bmod" hmem
  exact ⟨hmem, h.1, h.2⟩

/-- Python `os.path.splitext` restricted to a bare filename (what
`fileImport` applies it to, after `os.path.split`): the split point is the
last dot, unless every character before that dot is itself a dot, in which
case there is no extension. -/
def splitExtChars (s : List Char) : List Char × List Char :=
  match (List.range s.length).filter (fun i => s.getD i ' ' == '.')
      |>.getLast? with
  | none => (s, [])
  | some d =>
    if (s.take d).all (fun c => c == '.') then (s, [])
    else (s.take d, s.drop d)

/-- `os.path.splitext` on a Lean string (see `splitExtChars`). -/
def pySplitExt (name : String) : String × String :=
  (String.mk (splitExtChars name.data).1, String.mk (splitExtChars name.data).2)

/-- The candidate destination name tried by `fileImport`'s collision loop:
the Python f-string `f"{fileNameSplit[0]} ({i}){fileNameSplit[1]}"`. -/
def candidateName (stem ext : String) (i : Nat) : String :=
  stem ++ " (" ++ Nat.repr i ++ ")" ++ ext

/-- A directory (given as the boolean predicate of names it holds) leaves at
least one indexed candidate name free for `fileName`: the termination
condition of `fileImport`'s `while os.path.exists(...)` loop, which holds
for every real (finite) directory. -/
abbrev HasFreeName (ex : String → Bool) (fileName : String) : Prop :=
  ∃ i, ex (candidateName (pySplitExt fileName).1 (pySplitExt fileName).2
    (i + 1)) = false

/-- The destination filename computed by `fileImport` (src/main.py lines
646-653): the source basename itself when it is not taken, otherwise the
first candidate `"stem (i)ext"` with `i` counted up from 1 that is not
taken. `ex` is the contents of the mods directory as a predicate. -/
def destFileName (ex : String → Bool) (fileName : String)
    (h : HasFreeName ex fileName) : String :=
  if ex fileName = true then
    candidateName (pySplitExt fileName).1 (pySplitExt fileName).2
      (Nat.find h + 1)
  else fileName

/-- C2: `fileImport` never overwrites: the computed destination name is not
present in the mods directory; and when the basename is taken, the chosen
name is an indexed candidate with every smaller index from 1 up already
taken (the counter starts at 1 and increases until a free name appears). -/
theorem fileImport_collision_free (ex : String → Bool) (fileName : String)
    (h : HasFreeName ex fileName) :
    ex (destFileName ex fileName h) = false ∧
    (ex fileName = true →
      ∃ n, 1 ≤ n ∧
        destFileName ex fileName h =
          candidateName (pySplitExt fileName).1 (pySplitExt fileName).2 n ∧
        ∀ m, 1 ≤ m → m < n →
          ex (candidateName (pySplitExt fileName).1
            (pySplitExt fileName).2 m) = true) := by
  constructor
  · by_cases hx : ex fileName = true
    · have hs := Nat.find_spec h
      simp only [destFileName, if_pos hx]
      exact hs
    · have hfalse : ex fileName = false := by
        cases hb : ex fileName
        · rfl
        · exact absurd hb hx
      simp [destFileName, hx]
  · intro hx
    refine ⟨Nat.find h + 1, Nat.le_add_left 1 _, by simp [destFileName, hx], ?_⟩
    intro m h1 hm
    have hlt : m - 1 < Nat.find h := by omega
    have hmin := Nat.find_min h hlt
    have hm1 : m - 1 + 1 = m := by omega
    rw [hm1] at hmin
    cases hb : ex (candidateName (pySplitExt fileName).1
        (pySplitExt fileName).2 m)
    · exact absurd hb hmin
    · rfl

/-- The directory predicate of a mods directory holding only `a.bmod`. -/
def exOnlyA : String → Bool := fun s => s == "a.bmod"

/-- The directory predicate after the first collision copy: it holds
`a.bmod` and `a (1).bmod`. -/
def exAandA1 : String → Bool := fun s => s == "a.bmod" || s == "a (1).bmod"

theorem hFreeOnlyA : HasFreeName exOnlyA "a.bmod" := ⟨0, by decide⟩

theorem hFreeAandA1 : HasFreeName exAandA1 "a.bmod" := ⟨1, by decide⟩

/-- Witness for C2: with `a.bmod` present, importing `a.bmod` yields
`a (1).bmod`, which is unused; with `a (1).bmod` also present, a
third import yields `a (2).bmod`. -/
theorem fileImport_collision_free_witness :
    exOnlyA (destFileName exOnlyA "a.bmod" hFreeOnlyA) = false ∧
    destFileName exOnlyA "a.bmod" hFreeOnlyA = "a (1).bmod" ∧
    exAandA1 (destFileName exAandA1 "a.bmod" hFreeAandA1) = false ∧
    destFileName exAandA1 "a.bmod" hFreeAandA1 = "a (2).bmod" := by
  have e1 : Nat.find hFreeOnlyA = 0 :=
    (Nat.find_eq_zero hFreeOnlyA).mpr (by decide)
  have e2 : Nat.find hFreeAandA1 = 1 :=
    (Nat.find_eq_iff hFreeAandA1).mpr (by decide)
  refine ⟨(fileImport_collision_free exOnlyA "a.bmod" hFreeOnlyA).1, ?_,
    (fileImport_collision_free exAandA1 "a.bmod" hFreeAandA1).1, ?_⟩
  · simp only [destFileName, e1]
    decide
  · simp only [destFileName, e2]
    decide

/-- The early-return guard of `fileImport` (src/main.py line 643):
`os.path.abspath(filePath).startswith(os.path.abspath(self.modsPath))`.
Paths are given as absolute, normalized character lists, on which
`os.path.abspath` is the identity; the import is a silent no-op exactly
when this returns true. -/
def fileImportNoOp (modsPath filePath : List Char) : Bool :=
  listIsPrefix modsPath filePath

/-- A path resides inside a directory (the spec's wording for the guard):
it is the directory itself or extends it past a path separator. -/
def residesInside (modsPath filePath : List Char) : Bool :=
  filePath == modsPath || listIsPrefix (modsPath ++ ['/']) filePath

/-- Counterexample for C3: the sibling file `/w/Modsette.bmod` does not
reside inside the mods directory `/w/Mods`, yet `fileImport` silently
skips it, because the guard is a plain string-prefix test on the absolute
paths; so the no-op set is not exactly the set of paths inside the mods
directory. -/
theorem fileImport_guard_counterexample :
    fileImportNoOp "/w/Mods".toList "/w/Modsette.bmod".toList = true ∧
    residesInside "/w/Mods".toList "/w/Modsette.bmod".toList = false := by
  constructor
  · decide
  · decide

/-- C3 as amended: every path residing inside the managed mods directory is
silently skipped by `fileImport`, but the guard is a string-prefix test on
absolute paths, so some paths outside the directory (siblings whose name
extends the directory name without a separator) are skipped as well; the
no-op set is exactly the prefix-test set, not exactly the inside set. -/
theorem fileImport_guard_amended (modsPath filePath : List Char)
    (h : residesInside modsPath filePath = true) :
    fileImportNoOp modsPath filePath = true ∧
    ∃ d q : List Char, fileImportNoOp d q = true ∧ residesInside d q = false := by
  refine ⟨?_, "/w/Mods".toList, "/w/Modsette.bmod".toList, by decide, by decide⟩
  simp only [residesInside, Bool.or_eq_true, beq_iff_eq] at h
  rcases h with h | h
  · rw [h]
    simpa using listIsPrefix_append modsPath []
  · obtain ⟨t, rfl⟩ := (listIsPrefix_iff _ _).mp h
    simpa using listIsPrefix_append modsPath (['/'] ++ t)

/-- Witness for C3's amended theorem: a file inside the mods directory is
skipped. -/
theorem fileImport_guard_amended_witness :
    fileImportNoOp "/w/Mods".toList "/w/Mods/a.bmod".toList = true :=
  (fileImport_guard_amended "/w/Mods".toList "/w/Mods/a.bmod".toList
    (by decide)).1

/-- Python `s.split(sep, 1)` viewed from the front: the text before the
first separator and the text after it, or nothing when the separator does
not occur. -/
def splitFirst (sep : Char) : List Char → Option (List Char × List Char)
  | [] => none
  | c :: cs =>
    if c = sep then some ([], cs)
    else
      match splitFirst sep cs with
      | none => none
      | some (pre, post) => some (c :: pre, post)

/-- Python `s.split(sep, 1)` itself: a two-element list when the separator
occurs, the singleton `[s]` otherwise. -/
def pySplitOnce (sep : Char) (s : List Char) : List (List Char) :=
  match splitFirst sep s with
  | none => [s]
  | some (a, b) => [a, b]

/-- Python `s.strip("/")`: removes every leading and trailing slash. -/
def pyStripSlashes (s : List Char) : List Char :=
  ((s.dropWhile (fun c => c == '/')).reverse.dropWhile
    (fun c => c == '/')).reverse

/-- Python `s.split(sep)` without limit (`"".split(",") == [""]`). -/
def pySplitAll (sep : Char) : List Char → List (List Char)
  | [] => [[]]
  | c :: cs =>
    if c = sep then [] :: pySplitAll sep cs
    else
      match pySplitAll sep cs with
      | [] => [[c]]
      | g :: gs => (c :: g) :: gs

/-- What one `urlImport` call does with its URL string, as observable at its
caller: the IndexError crash of `url.split(":", 1)[1]` when the string has
no colon, silent abandonment when the comma-field count is not 3, or a
download attempt at the derived URL. -/
inductive UrlOutcome
  | crash
  | abandoned
  | download (dlUrl : List Char)
  deriving DecidableEq

/-- The fixed prefix of the derived download URL,
`f"http://gamebanana.com/dl/{dlId}"` without its download id. -/
def gamebananaDl : List Char := "http://gamebanana.com/dl/".toList

/-- The text `urlImport` parses fields from: the part of the URL after the
first colon, with surrounding slashes stripped
(`url.split(":", 1)[1].strip("/")`); none models the IndexError when the
URL has no colon. -/
def urlAfterScheme (url : List Char) : Option (List Char) :=
  ((pySplitOnce ':' url).get? 1).map pyStripSlashes

/-- The parsing and dispatch prelude of `urlImport` (src/main.py lines
667-678): split the remainder on commas; on exactly 3 fields derive the
gamebanana download URL from the third and attempt the download, otherwise
return silently. -/
def urlImport (url : List Char) : UrlOutcome :=
  match urlAfterScheme url with
  | none => UrlOutcome.crash
  | some data =>
    if (pySplitAll ',' data).length = 3 then
      UrlOutcome.download (gamebananaDl ++ (pySplitAll ',' data).getD 2 [])
    else UrlOutcome.abandoned

theorem listIsSuffix_append {α : Type} [DecidableEq α] (p l : List α) :
    listIsSuffix l (p ++ l) = true := by
  simp only [listIsSuffix, List.reverse_append]
  exact listIsPrefix_append l.reverse p.reverse

/-- C7: once the scheme has been stripped at the first colon and the
surrounding slashes removed, splitting the remainder on commas decides
everything: exactly 3 fields produce a download attempt at the derived
gamebanana URL, which contains the third field as its suffix; any other
field count abandons the item silently — no download, no crash. -/
theorem urlImport_parse_contract (url data : List Char)
    (h : urlAfterScheme url = some data) :
    ((pySplitAll ',' data).length = 3 →
      urlImport url =
        UrlOutcome.download (gamebananaDl ++ (pySplitAll ',' data).getD 2 []) ∧
      listIsSuffix ((pySplitAll ',' data).getD 2 [])
        (gamebananaDl ++ (pySplitAll ',' data).getD 2 []) = true) ∧
    ((pySplitAll ',' data).length ≠ 3 → urlImport url = UrlOutcome.abandoned) := by
  constructor
  · intro h3
    exact ⟨by simp [urlImport, h, h3], listIsSuffix_append _ _⟩
  · intro h3
    simp [urlImport, h, h3]

/-- Witness for C7: `scheme://tag,123,456` downloads from the derived URL
ending in 456; the two-field `scheme://onlytwo,fields` is abandoned with no
download and no crash. -/
theorem urlImport_parse_contract_witness :
    urlImport "scheme://tag,123,456".toList =
      UrlOutcome.download "http://gamebanana.com/dl/456".toList ∧
    urlImport "scheme://onlytwo,fields".toList = UrlOutcome.abandoned := by
  constructor
  · have h := ((urlImport_parse_contract "scheme://tag,123,456".toList
      "tag,123,456".toList (by decide)).1 (by decide)).1
    rw [h]
    decide
  · exact (urlImport_parse_contract "scheme://onlytwo,fields".toList
      "onlytwo,fields".toList (by decide)).2 (by decide)

theorem splitFirst_eq_none {url : List Char} (h : url.contains ':' = false) :
    splitFirst ':' url = none := by
  induction url with
  | nil => rfl
  | cons c cs ih =>
    simp only [List.contains_cons, Bool.or_eq_false_iff] at h
    have hc : ¬ c = ':' := by
      intro hc
      subst hc
      simp at h
    simp [splitFirst, hc, ih h.2]

/-- C10: `urlImport` is not total — on any URL string with no colon, the
indexing `url.split(":", 1)[1]` raises an uncaught IndexError before the
field-count check is ever reached. -/
theorem urlImport_no_colon_crash (url : List Char)
    (h : url.contains ':' = false) :
    urlImport url = UrlOutcome.crash := by
  simp [urlImport, urlAfterScheme, pySplitOnce, splitFirst_eq_none h]

/-- Witness for C10: a colon-free input crashes. -/
theorem urlImport_no_colon_crash_witness :
    urlImport "noscheme".toList = UrlOutcome.crash :=
  urlImport_no_colon_crash "noscheme".toList (by decide)

/-- How the download step of `urlImport` can end: a completed download, a
failure after the scratch file was opened (e.g. a connection dropped mid
transfer), or a failure before the local file was ever created (DNS
failure, HTTP error — `urlretrieve` opens its output file only after
`urlopen` succeeds). -/
inductive DlOutcome
  | success
  | failFileCreated
  | failNoFile
  deriving DecidableEq

/-- One run of the archive import pipeline of `urlImport` past the arity
check (src/main.py lines 686-727), described by which failures occur. -/
structure UrlImportRun where
  dl : DlOutcome
  unpackFails : Bool
  deriving DecidableEq

/-- What a pipeline run leaves behind: whether the scratch file
`_mod.archive` still exists, and whether the call raises to its caller. -/
structure UrlImportResult where
  scratchExists : Bool
  raisesToCaller : Bool
  deriving DecidableEq

/-- Whether the download step left the scratch file on disk. -/
def scratchCreated : DlOutcome → Bool
  | DlOutcome.failNoFile => false
  | _ => true

/-- Whether the download step raised. -/
def downloadRaises : DlOutcome → Bool
  | DlOutcome.success => false
  | _ => true

/-- `os.remove(path)`: deletes the file when it exists and raises
FileNotFoundError when it does not. Returns (file exists afterwards,
raised). -/
def osRemove (fileExists : Bool) : Bool × Bool :=
  (false, !fileExists)

/-- The try/except/finally of `urlImport`: the try body downloads, sniffs
and extracts; the two except clauses together catch every exception the
body raises (they only present an error dialog); the finally clause calls
`os.remove` on the scratch path unconditionally, and an exception it raises
propagates to the caller. -/
def runUrlImportPipeline (r : UrlImportRun) : UrlImportResult :=
  let bodyRaises := downloadRaises r.dl || r.unpackFails
  let caughtByExcept := bodyRaises
  let removed := osRemove (scratchCreated r.dl)
  { scratchExists := removed.1,
    raisesToCaller := (bodyRaises && !caughtByExcept) || removed.2 }

/-- C6 evaluated at its failing input: when the download fails before the
scratch file is created, the unconditional `os.remove` in the finally
clause itself raises, so the run does propagate an exception to its caller
— against the claim that no run raises. (On every run the scratch file is
absent afterwards, and runs whose download created the file raise
nothing.) -/
theorem urlImport_cleanup_raises_without_scratch :
    runUrlImportPipeline ⟨DlOutcome.failNoFile, false⟩ =
      { scratchExists := false, raisesToCaller := true } ∧
    ∀ r : UrlImportRun, (runUrlImportPipeline r).scratchExists = false ∧
      ((runUrlImportPipeline r).raisesToCaller = true ↔
        r.dl = DlOutcome.failNoFile) := by
  refine ⟨rfl, ?_⟩
  rintro ⟨dl, unpack⟩
  cases dl <;> simp [runUrlImportPipeline, osRemove, scratchCreated,
    downloadRaises]

/-- The notification kinds named in `controllerHandler`'s dispatch
(src/main.py lines 242-353): the `core.NotificationType` values this layer
reacts to. -/
inductive NType
  | LoadingMod
  | ModElementsCount
  | ModConflictSearchInSwf
  | ModConflictNotFound
  | ModConflict
  | InstallingModSwf
  | InstallingModSwfSprite
  | InstallingModSwfSound
  | InstallingModFile
  | InstallingModFileCache
  | InstallingModFinished
  | UninstallingModSwf
  | UninstallingModSwfSprite
  | UninstallingModSwfSound
  | UninstallingModFile
  | UninstallingModFinished
  | CompileModSourcesSpriteHasNoSymbolclass
  | CompileModSourcesSpriteEmpty
  | CompileModSourcesSpriteNotFoundInFolder
  | CompileModSourcesUnsupportedCategory
  | CompileModSourcesUnknownFile
  | CompileModSourcesSaveError
  | LoadingModIsEmpty
  | InstallingModNotFoundFileElement
  | InstallingModNotFoundGameSwf
  | InstallingModSwfScriptError
  | InstallingModSwfSoundSymbolclassNotExist
  | InstallingModSoundNotExist
  | InstallingModSwfSpriteSymbolclassNotExist
  | InstallingModSpriteNotExist
  | UninstallingModSwfOriginalElementNotFound
  | UninstallingModSwfElementNotFound
  deriving DecidableEq

/-- An engine notification: a kind and its positional argument tuple
(arguments flattened to strings; hashes are opaque strings here). -/
structure PyNotification where
  ntype : NType
  args : List String
  deriving DecidableEq

/-- The fixed list of soft-error kinds buffered by `controllerHandler`
(src/main.py lines 337-352), in the source's order. -/
def softErrorKinds : List NType :=
  [NType.CompileModSourcesSpriteHasNoSymbolclass,
   NType.CompileModSourcesSpriteEmpty,
   NType.CompileModSourcesSpriteNotFoundInFolder,
   NType.CompileModSourcesUnsupportedCategory,
   NType.CompileModSourcesUnknownFile,
   NType.CompileModSourcesSaveError,
   NType.LoadingModIsEmpty,
   NType.InstallingModNotFoundFileElement,
   NType.InstallingModNotFoundGameSwf,
   NType.InstallingModSwfScriptError,
   NType.InstallingModSwfSoundSymbolclassNotExist,
   NType.InstallingModSoundNotExist,
   NType.InstallingModSwfSpriteSymbolclassNotExist,
   NType.InstallingModSpriteNotExist,
   NType.UninstallingModSwfOriginalElementNotFound,
   NType.UninstallingModSwfElementNotFound]

/-- Modelled from the spec: Python's `repr` of a `core.Notification`
object, the fallback line of `showErrorNotifications` for a buffered
notification with no dedicated format string. The class lives in the
external `core` package, outside src/; only the fact that it yields one
line per notification matters to the properties below. -/
def reprNotification (n : PyNotification) : String :=
  "Notification(" ++ String.intercalate ", " n.args ++ ")"

/-- The per-notification formatting of `showErrorNotifications`
(src/main.py lines 418-458): a dedicated message for ten kinds, the
`repr` of the notification for every other buffered kind; exactly one
string per notification either way. -/
def errorLine (n : PyNotification) : String :=
  match n.ntype with
  | NType.LoadingModIsEmpty =>
    "Mod '" ++ n.args.getD 1 "" ++ "' is empty"
  | NType.InstallingModNotFoundFileElement =>
    "Not found element '" ++ n.args.getD 1 "" ++ "' in bmod "
  | NType.InstallingModNotFoundGameSwf =>
    "Not found game file '" ++ n.args.getD 1 "" ++ "'"
  | NType.InstallingModSwfScriptError =>
    "Script '" ++ n.args.getD 1 "" ++ "' not installed"
  | NType.InstallingModSwfSoundSymbolclassNotExist =>
    "Not found sound '" ++ n.args.getD 1 "" ++ "' in '" ++
      n.args.getD 2 "" ++ "'"
  | NType.InstallingModSoundNotExist =>
    "Not found sound '" ++ n.args.getD 1 "" ++ " (" ++ n.args.getD 2 "" ++
      ")' in '" ++ n.args.getD 3 "" ++ "'"
  | NType.InstallingModSwfSpriteSymbolclassNotExist =>
    "Not found sprite '" ++ n.args.getD 1 "" ++ "' in '" ++
      n.args.getD 2 "" ++ "'"
  | NType.InstallingModSpriteNotExist =>
    "Not found sprite '" ++ n.args.getD 1 "" ++ " (" ++ n.args.getD 2 "" ++
      ")' in mod file"
  | NType.UninstallingModSwfOriginalElementNotFound =>
    "Not found orig element '" ++ n.args.getD 1 "" ++ "' in '" ++
      n.args.getD 2 "" ++ "'"
  | NType.UninstallingModSwfElementNotFound =>
    "Not found mod element '" ++ n.args.getD 1 "" ++ "' in '" ++
      n.args.getD 2 "" ++ "'"
  | _ => reprNotification n

/-- `showErrorNotifications` (src/main.py lines 412-465): when the buffer
is non-empty it is copied and cleared first, then one line is produced per
buffered notification and the combined report is shown. Returns (report
lines, buffer afterwards). -/
def showErrorNotifications (errors : List PyNotification) :
    List String × List PyNotification :=
  if errors = [] then ([], errors) else (errors.map errorLine, [])

/-- The externally visible effects of handling a single notification:
engine commands issued (`installMod` hashes), dialogs newly shown (by
name), and the lines of an error report presented at a checkpoint. -/
structure RouterEffect where
  installCmds : List String
  dialogsShown : List String
  reportLines : List String
  deriving DecidableEq

/-- The effect of a branch that only updates progress text or loading
status: no command, no dialog shown, no report. -/
def RouterEffect.quiet : RouterEffect := ⟨[], [], []⟩

/-- The `Environment.Notification` branch of `controllerHandler`
(src/main.py lines 242-353) as one step of a state machine over the error
buffer `self.errors`, mirroring the source's elif chain in order. Returns
the buffer afterwards and the step's effects. -/
def routeNotification (errors : List PyNotification) (n : PyNotification) :
    List PyNotification × RouterEffect :=
  if n.ntype = NType.LoadingMod then (errors, RouterEffect.quiet)
  else if n.ntype = NType.ModElementsCount then (errors, RouterEffect.quiet)
  else if n.ntype = NType.ModConflictSearchInSwf then
    (errors, RouterEffect.quiet)
  else if n.ntype = NType.ModConflictNotFound then
    (errors, ⟨[n.args.getD 0 ""], [], []⟩)
  else if n.ntype = NType.ModConflict then
    (errors, ⟨[], ["acceptDialog"], []⟩)
  else if n.ntype = NType.InstallingModSwf then (errors, RouterEffect.quiet)
  else if n.ntype = NType.InstallingModSwfSprite then
    (errors, RouterEffect.quiet)
  else if n.ntype = NType.InstallingModSwfSound then
    (errors, RouterEffect.quiet)
  else if n.ntype = NType.InstallingModFile then (errors, RouterEffect.quiet)
  else if n.ntype = NType.InstallingModFileCache then
    (errors, RouterEffect.quiet)
  else if n.ntype = NType.InstallingModFinished then
    ((showErrorNotifications errors).2,
     ⟨[], if (showErrorNotifications errors).1 = [] then []
          else ["buttonsDialog"],
      (showErrorNotifications errors).1⟩)
  else if n.ntype = NType.UninstallingModSwf then
    (errors, RouterEffect.quiet)
  else if n.ntype = NType.UninstallingModSwfSprite then
    (errors, RouterEffect.quiet)
  else if n.ntype = NType.UninstallingModSwfSound then
    (errors, RouterEffect.quiet)
  else if n.ntype = NType.UninstallingModFile then
    (errors, RouterEffect.quiet)
  else if n.ntype = NType.UninstallingModFinished then
    ((showErrorNotifications errors).2,
     ⟨[], if (showErrorNotifications errors).1 = [] then []
          else ["buttonsDialog"],
      (showErrorNotifications errors).1⟩)
  else if n.ntype ∈ softErrorKinds then
    (errors ++ [n], RouterEffect.quiet)
  else (errors, RouterEffect.quiet)

/-- A sequence of notifications routed one after the other, collecting each
step's effects in order. -/
def routeAll : List PyNotification → List PyNotification →
    List PyNotification × List RouterEffect
  | errors, [] => (errors, [])
  | errors, n :: ns =>
    ((routeAll (routeNotification errors n).1 ns).1,
     (routeNotification errors n).2 ::
       (routeAll (routeNotification errors n).1 ns).2)

/-- C8: a `ModConflictNotFound(hash)` notification issues exactly one
`installMod(hash)` command, shows no dialog, presents no report, and
leaves the error buffer untouched. -/
theorem conflictNotFound_autoinstall (errors : List PyNotification)
    (hash : String) :
    routeNotification errors ⟨NType.ModConflictNotFound, [hash]⟩ =
      (errors, ⟨[hash], [], []⟩) := rfl

theorem routeNotification_soft (errors : List PyNotification)
    (n : PyNotification) (h : n.ntype ∈ softErrorKinds) :
    routeNotification errors n = (errors ++ [n], RouterEffect.quiet) := by
  obtain ⟨t, args⟩ := n
  simp only [softErrorKinds, List.mem_cons, List.not_mem_nil, or_false] at h
  rcases h with rfl | rfl | rfl | rfl | rfl | rfl | rfl | rfl | rfl | rfl |
    rfl | rfl | rfl | rfl | rfl | rfl <;> rfl

theorem routeAll_soft (es : List PyNotification)
    (errors : List PyNotification)
    (h : ∀ n ∈ es, n.ntype ∈ softErrorKinds) :
    routeAll errors es =
      (errors ++ es, List.replicate es.length RouterEffect.quiet) := by
  induction es generalizing errors with
  | nil => simp [routeAll]
  | cons e es ih =>
    have he := h e (List.mem_cons_self e es)
    have hrest : ∀ n ∈ es, n.ntype ∈ softErrorKinds := fun n hn =>
      h n (List.mem_cons_of_mem e hn)
    simp [routeAll, routeNotification_soft errors e he, ih _ hrest,
      List.replicate_succ]

theorem routeAll_append (errors : List PyNotification)
    (xs ys : List PyNotification) :
    routeAll errors (xs ++ ys) =
      ((routeAll (routeAll errors xs).1 ys).1,
       (routeAll errors xs).2 ++ (routeAll (routeAll errors xs).1 ys).2) := by
  induction xs generalizing errors with
  | nil => simp [routeAll]
  | cons x xs ih => simp [routeAll, ih]

/-- C9: soft-error notifications accumulate in the buffer instead of being
surfaced, and the `InstallingModFinished` checkpoint drains and clears the
buffer atomically: the report it presents holds exactly one formatted line
per buffered notification, and the buffer is empty afterwards. -/
theorem errorBuffer_checkpoint_flush (hash : String)
    (es : List PyNotification)
    (h : ∀ n ∈ es, n.ntype ∈ softErrorKinds) :
    (routeAll [] (es ++ [⟨NType.InstallingModFinished, [hash]⟩])).1 = [] ∧
    (routeAll [] (es ++ [⟨NType.InstallingModFinished, [hash]⟩])).2.getLast?
      = some ⟨[], if es = [] then [] else ["buttonsDialog"],
          es.map errorLine⟩ ∧
    (es.map errorLine).length = es.length := by
  have hsoft := routeAll_soft es [] h
  have happ := routeAll_append [] es [⟨NType.InstallingModFinished, [hash]⟩]
  rw [hsoft] at happ
  have hfin : routeNotification es ⟨NType.InstallingModFinished, [hash]⟩ =
      ((showErrorNotifications es).2,
       ⟨[], if (showErrorNotifications es).1 = [] then []
            else ["buttonsDialog"],
        (showErrorNotifications es).1⟩) := rfl
  by_cases hes : es = []
  · subst hes
    refine ⟨?_, ?_, by simp⟩ <;>
      simp [routeAll, happ, hfin, showErrorNotifications]
  · have hshow : showErrorNotifications es = (es.map errorLine, []) := by
      simp [showErrorNotifications, hes]
    have hlines : ¬ (es.map errorLine = []) := by
      simp [hes]
    constructor
    · simp [happ, routeAll, hfin, hshow]
    constructor
    · simp [happ, routeAll, hfin, hshow, hes, hlines]
    · simp

/-- Three concrete soft-error notifications for the C9 witness. -/
def softThree : List PyNotification :=
  [⟨NType.LoadingModIsEmpty, ["h1", "ModA"]⟩,
   ⟨NType.CompileModSourcesSpriteEmpty, ["h2"]⟩,
   ⟨NType.InstallingModNotFoundGameSwf, ["h3", "Game.swf"]⟩]

/-- Witness for C9: after three buffered soft errors, the
`InstallingModFinished` checkpoint presents a report of exactly three
lines and leaves the buffer empty. -/
theorem errorBuffer_checkpoint_flush_witness :
    (routeAll [] (softThree ++
      [⟨NType.InstallingModFinished, ["h1"]⟩])).1 = [] ∧
    ((routeAll [] (softThree ++
        [⟨NType.InstallingModFinished, ["h1"]⟩])).2.getLast?.getD
      RouterEffect.quiet).reportLines.length = 3 := by
  have h := errorBuffer_checkpoint_flush "h1" softThree (by decide)
  refine ⟨h.1, ?_⟩
  rw [h.2.1]
  simp [softThree]
